import Mathlib

/-!
Shallow embedding of `csrc/cache_kernels.cu`: the block-transfer, block-replication,
cache-scatter and precision-conversion primitives of the paged KV-cache layer.

Buffers are modelled as total maps from a flat element (or byte) index to the stored
value; tensors carry a device tag.  Kernel grids are modelled by folds over the
index ranges the grid enumerates; per the source contracts the written target
regions are pairwise disjoint, so the sequential fold agrees with any parallel
interleaving under the disjointness hypotheses stated by the theorems.
`TORCH_CHECK` failures are modelled as `Except.error`: an error result carries no
updated buffer, which captures that the check fires synchronously, before any
copy is enqueued or any element is written.
-/

namespace CacheKernels

variable {α : Type}

/-- Residency of a torch tensor: a CUDA device with an index, or host (CPU). -/
inductive Device where
  | cuda (idx : Nat)
  | cpu
deriving DecidableEq

/-- Mirrors `torch::Device::is_cuda()`. -/
def Device.isCuda : Device → Bool
  | .cuda _ => true
  | .cpu => false

/-- A tensor: a device tag plus its flat contents. -/
structure DTensor (α : Type) where
  dev : Device
  data : Nat → α

/-- The `cudaMemcpyKind` chosen by `swap_blocks` from the residency combination. -/
inductive MemcpyKind where
  | deviceToDevice
  | deviceToHost
  | hostToDevice
deriving DecidableEq

/-- Copy of one contiguous region of `B` cells starting at `sBase` of `srcF`
onto the region of `B` cells starting at `dBase` of `dstF`.  Blocks are aligned
multiples of `B`, so distinct blocks give disjoint regions and the elementwise
loop of the source equals this region description. -/
def regionCopy (B sBase dBase : Nat) (srcF dstF : Nat → α) : Nat → α :=
  fun idx => if dBase ≤ idx ∧ idx < dBase + B then srcF (sBase + (idx - dBase)) else dstF idx

/-- The `cudaMemcpyAsync` loop of `swap_blocks`: for each `(src, dst)` pair of the
mapping, copy `B = block_size_in_bytes` bytes from source block `src` to
destination block `dst`. -/
def swapBlocksData (B : Nat) (srcData : Nat → α) (mapping : List (Nat × Nat))
    (dstData : Nat → α) : Nat → α :=
  mapping.foldl (fun d p => regionCopy B (p.1 * B) (p.2 * B) srcData d) dstData

/-- `swap_blocks(src, dst, block_mapping)`: residency dispatch, mapping-device
check, then the block copies.  `block_size_in_bytes = src.element_size() *
src[0].numel()` is `elemSize * numelPerBlock`. -/
def swap_blocks (src dst : DTensor α) (elemSize numelPerBlock : Nat)
    (mapDev : Device) (mapping : List (Nat × Nat)) :
    Except String (DTensor α × DTensor α) :=
  (match src.dev, dst.dev with
    | Device.cuda i, Device.cuda j =>
        if i = j then Except.ok MemcpyKind.deviceToDevice
        else Except.error "src and dst must be on the same GPU"
    | Device.cuda _, Device.cpu => Except.ok MemcpyKind.deviceToHost
    | Device.cpu, Device.cuda _ => Except.ok MemcpyKind.hostToDevice
    | Device.cpu, Device.cpu => Except.error "invalid device combination").bind
  fun _ =>
    if mapDev = Device.cpu then
      Except.ok (src, ⟨dst.dev, swapBlocksData (elemSize * numelPerBlock) src.data mapping dst.data⟩)
    else Except.error "block_mapping must be on CPU"

/-- Aligned blocks of width `B` are disjoint: a cell of block `b` never lies in
the region of a different block `d`. -/
theorem block_region_ne {B b d j : Nat} (hbd : b ≠ d) (hj : j < B) :
    ¬(d * B ≤ b * B + j ∧ b * B + j < d * B + B) := by
  rintro ⟨h1, h2⟩
  rcases Nat.lt_or_ge b d with hlt | hge
  · have h3 : (b + 1) * B ≤ d * B := Nat.mul_le_mul_right B hlt
    rw [Nat.succ_mul] at h3
    omega
  · have hdb : d < b := lt_of_le_of_ne hge (Ne.symm hbd)
    have h3 : (d + 1) * B ≤ b * B := Nat.mul_le_mul_right B hdb
    rw [Nat.succ_mul] at h3
    omega

theorem swapBlocksData_preserve {B : Nat} {srcData : Nat → α}
    {mapping : List (Nat × Nat)} {dstData : Nat → α} {b j : Nat} (hj : j < B)
    (hb : ∀ p ∈ mapping, p.2 ≠ b) :
    swapBlocksData B srcData mapping dstData (b * B + j) = dstData (b * B + j) := by
  induction mapping generalizing dstData with
  | nil => rfl
  | cons q rest ih =>
      have hq : q.2 ≠ b := hb q (List.mem_cons_self q rest)
      have hout := block_region_ne (B := B) (b := b) (d := q.2) (fun h => hq h.symm) hj
      have : regionCopy B (q.1 * B) (q.2 * B) srcData dstData (b * B + j) = dstData (b * B + j) := by
        simp only [regionCopy]
        rw [if_neg hout]
      calc swapBlocksData B srcData (q :: rest) dstData (b * B + j)
          = swapBlocksData B srcData rest (regionCopy B (q.1 * B) (q.2 * B) srcData dstData) (b * B + j) := rfl
        _ = regionCopy B (q.1 * B) (q.2 * B) srcData dstData (b * B + j) :=
            ih (fun p hp => hb p (List.mem_cons_of_mem q hp))
        _ = dstData (b * B + j) := this

theorem swapBlocksData_read {B : Nat} {srcData : Nat → α}
    {mapping : List (Nat × Nat)} {dstData : Nat → α}
    (hdist : mapping.Pairwise fun p q => p.2 ≠ q.2)
    {p : Nat × Nat} (hp : p ∈ mapping) {j : Nat} (hj : j < B) :
    swapBlocksData B srcData mapping dstData (p.2 * B + j) = srcData (p.1 * B + j) := by
  induction mapping generalizing dstData with
  | nil => cases hp
  | cons q rest ih =>
      rw [List.pairwise_cons] at hdist
      rcases List.mem_cons.mp hp with hpq | hpr
      · subst hpq
        have hrest : ∀ r ∈ rest, r.2 ≠ p.2 := fun r hr => (hdist.1 r hr).symm
        have hin : p.2 * B ≤ p.2 * B + j ∧ p.2 * B + j < p.2 * B + B := by omega
        calc swapBlocksData B srcData (p :: rest) dstData (p.2 * B + j)
            = swapBlocksData B srcData rest (regionCopy B (p.1 * B) (p.2 * B) srcData dstData) (p.2 * B + j) := rfl
          _ = regionCopy B (p.1 * B) (p.2 * B) srcData dstData (p.2 * B + j) :=
              swapBlocksData_preserve hj hrest
          _ = srcData (p.1 * B + j) := by
              simp only [regionCopy]
              rw [if_pos hin]
              congr 1
              omega
      · exact ih hdist.2 hpr

/-- C2: for every valid block mapping (pairwise-distinct destination blocks, per
the §3/§9 contract that duplicate destinations are unspecified), `swap_blocks`
returns the source tensor unchanged and a destination whose block `dst` holds,
byte for byte, the `block_size_in_bytes = elemSize * numelPerBlock` bytes of
source block `src`, for every `(src, dst)` pair of the mapping. -/
theorem swap_blocks_copies (sdata ddata : Nat → α) (gpu elemSize numelPerBlock : Nat)
    (mapping : List (Nat × Nat))
    (hdist : mapping.Pairwise fun p q => p.2 ≠ q.2)
    (p : Nat × Nat) (hp : p ∈ mapping) (j : Nat) (hj : j < elemSize * numelPerBlock) :
    swap_blocks ⟨Device.cuda gpu, sdata⟩ ⟨Device.cpu, ddata⟩ elemSize numelPerBlock
        Device.cpu mapping
      = Except.ok (⟨Device.cuda gpu, sdata⟩,
          ⟨Device.cpu, swapBlocksData (elemSize * numelPerBlock) sdata mapping ddata⟩) ∧
    swapBlocksData (elemSize * numelPerBlock) sdata mapping ddata
        (p.2 * (elemSize * numelPerBlock) + j)
      = sdata (p.1 * (elemSize * numelPerBlock) + j) := by
  refine ⟨rfl, ?_⟩
  exact swapBlocksData_read hdist hp hj

/-- Sample byte buffer used by concrete witnesses. -/
def sampleBuf : Nat → Nat := fun n => n * 3 + 1

/-- Sample second buffer used by concrete witnesses. -/
def sampleBuf2 : Nat → Nat := fun n => n + 1000

theorem swap_blocks_copies_witness :
    ([(0, 0), (1, 1)] : List (Nat × Nat)).Pairwise (fun p q => p.2 ≠ q.2) ∧
    swapBlocksData (2 * 4) sampleBuf [(0, 0), (1, 1)] sampleBuf2 (1 * (2 * 4) + 3)
      = sampleBuf (1 * (2 * 4) + 3) :=
  ⟨by decide,
    (swap_blocks_copies sampleBuf sampleBuf2 0 2 4 [(0, 0), (1, 1)] (by decide)
      (1, 1) (by decide) 3 (by decide)).2⟩

/-- C6: `swap_blocks` residency dispatch.  Device↔device is accepted only with
equal device indices, device↔host is accepted in both directions, host↔host is
rejected, and the block-mapping table must be host-resident; every rejection is
an `Except.error`, which carries no updated buffer — nothing is enqueued. -/
theorem swap_blocks_residency (sdata ddata : Nat → α) (elemSize numelPerBlock i j : Nat)
    (mapping : List (Nat × Nat)) (mapDev : Device) :
    (i = j →
      swap_blocks ⟨Device.cuda i, sdata⟩ ⟨Device.cuda j, ddata⟩ elemSize numelPerBlock
          Device.cpu mapping
        = Except.ok (⟨Device.cuda i, sdata⟩,
            ⟨Device.cuda j, swapBlocksData (elemSize * numelPerBlock) sdata mapping ddata⟩)) ∧
    (i ≠ j → ∃ e, swap_blocks ⟨Device.cuda i, sdata⟩ ⟨Device.cuda j, ddata⟩ elemSize
        numelPerBlock Device.cpu mapping = Except.error e) ∧
    (swap_blocks ⟨Device.cuda i, sdata⟩ ⟨Device.cpu, ddata⟩ elemSize numelPerBlock
        Device.cpu mapping
      = Except.ok (⟨Device.cuda i, sdata⟩,
          ⟨Device.cpu, swapBlocksData (elemSize * numelPerBlock) sdata mapping ddata⟩)) ∧
    (swap_blocks ⟨Device.cpu, sdata⟩ ⟨Device.cuda i, ddata⟩ elemSize numelPerBlock
        Device.cpu mapping
      = Except.ok (⟨Device.cpu, sdata⟩,
          ⟨Device.cuda i, swapBlocksData (elemSize * numelPerBlock) sdata mapping ddata⟩)) ∧
    (∃ e, swap_blocks ⟨Device.cpu, sdata⟩ ⟨Device.cpu, ddata⟩ elemSize numelPerBlock
        mapDev mapping = Except.error e) ∧
    (mapDev ≠ Device.cpu → ∀ sdev ddev : Device,
      ∃ e, swap_blocks ⟨sdev, sdata⟩ ⟨ddev, ddata⟩ elemSize numelPerBlock
        mapDev mapping = Except.error e) := by
  refine ⟨?_, ?_, rfl, rfl, ⟨"invalid device combination", rfl⟩, ?_⟩
  · intro hij
    subst hij
    simp [swap_blocks, Except.bind]
  · intro hij
    refine ⟨"src and dst must be on the same GPU", ?_⟩
    simp [swap_blocks, hij, Except.bind]
  · intro hmap sdev ddev
    cases sdev with
    | cuda a =>
      cases ddev with
      | cuda b =>
          by_cases hab : a = b
          · subst hab
            exact ⟨"block_mapping must be on CPU", by simp [swap_blocks, hmap, Except.bind]⟩
          · exact ⟨"src and dst must be on the same GPU",
              by simp [swap_blocks, hab, Except.bind]⟩
      | cpu => exact ⟨"block_mapping must be on CPU", by simp [swap_blocks, hmap, Except.bind]⟩
    | cpu =>
      cases ddev with
      | cuda b => exact ⟨"block_mapping must be on CPU", by simp [swap_blocks, hmap, Except.bind]⟩
      | cpu => exact ⟨"invalid device combination", rfl⟩

theorem swap_blocks_residency_witness :
    (∃ e, swap_blocks ⟨Device.cuda 0, sampleBuf⟩ ⟨Device.cuda 1, sampleBuf2⟩ 2 4
        Device.cpu ([] : List (Nat × Nat)) = Except.error e) ∧
    (∃ e, swap_blocks ⟨Device.cpu, sampleBuf⟩ ⟨Device.cpu, sampleBuf2⟩ 2 4
        Device.cpu ([] : List (Nat × Nat)) = Except.error e) :=
  have h := swap_blocks_residency (α := Nat) sampleBuf sampleBuf2 2 4 0 1
    ([] : List (Nat × Nat)) Device.cpu
  ⟨h.2.1 (by decide), h.2.2.2.2.1⟩

/-- Per-layer body of `copy_blocks_kernel` for one cache buffer: for each
`(src, dst)` pair of the mapping, copy the `numel_per_block` elements of block
`src` onto block `dst`, in place. -/
def copyBlocksBuf (numel : Nat) (mapping : List (Nat × Nat)) (buf : Nat → α) : Nat → α :=
  mapping.foldl (fun b p => regionCopy numel (p.1 * numel) (p.2 * numel) b b) buf

/-- `copy_blocks(key_caches, value_caches, block_mapping)`: layer-count check,
empty-layer early return, device check on `key_caches[0]`, then
`copy_blocks_kernel` runs over every layer's key and value buffer with the one
shared mapping (`numel` is `key_caches[0][0].numel()`). -/
def copy_blocks (numel : Nat) (keyCaches valueCaches : List (DTensor α))
    (mapping : List (Nat × Nat)) :
    Except String (List (DTensor α) × List (DTensor α)) :=
  if keyCaches.length ≠ valueCaches.length then
    Except.error "key and value layer count mismatch"
  else
    match keyCaches with
    | [] => Except.ok (keyCaches, valueCaches)
    | k0 :: _ =>
      if k0.dev.isCuda then
        Except.ok
          (keyCaches.map fun t => ⟨t.dev, copyBlocksBuf numel mapping t.data⟩,
           valueCaches.map fun t => ⟨t.dev, copyBlocksBuf numel mapping t.data⟩)
      else Except.error "cache must be on GPU"

theorem copyBlocksBuf_preserve {numel : Nat} {mapping : List (Nat × Nat)} {buf : Nat → α}
    {b j : Nat} (hj : j < numel) (hb : ∀ p ∈ mapping, p.2 ≠ b) :
    copyBlocksBuf numel mapping buf (b * numel + j) = buf (b * numel + j) := by
  induction mapping generalizing buf with
  | nil => rfl
  | cons q rest ih =>
      have hq : q.2 ≠ b := hb q (List.mem_cons_self q rest)
      have hout := block_region_ne (B := numel) (b := b) (d := q.2) (fun h => hq h.symm) hj
      calc copyBlocksBuf numel (q :: rest) buf (b * numel + j)
          = copyBlocksBuf numel rest
              (regionCopy numel (q.1 * numel) (q.2 * numel) buf buf) (b * numel + j) := rfl
        _ = regionCopy numel (q.1 * numel) (q.2 * numel) buf buf (b * numel + j) :=
            ih (fun p hp => hb p (List.mem_cons_of_mem q hp))
        _ = buf (b * numel + j) := by
            simp only [regionCopy]
            rw [if_neg hout]

theorem copyBlocksBuf_read {numel : Nat} {mapping : List (Nat × Nat)} {buf : Nat → α}
    (hdisj : ∀ p ∈ mapping, ∀ q ∈ mapping, q.2 ≠ p.1)
    (hdist : mapping.Pairwise fun p q => p.2 ≠ q.2)
    {p : Nat × Nat} (hp : p ∈ mapping) {j : Nat} (hj : j < numel) :
    copyBlocksBuf numel mapping buf (p.2 * numel + j) = buf (p.1 * numel + j) := by
  induction mapping generalizing buf with
  | nil => cases hp
  | cons q rest ih =>
      rw [List.pairwise_cons] at hdist
      have hstep : copyBlocksBuf numel (q :: rest) buf
          = copyBlocksBuf numel rest (regionCopy numel (q.1 * numel) (q.2 * numel) buf buf) := rfl
      rcases List.mem_cons.mp hp with hpq | hpr
      · subst hpq
        have hrest : ∀ r ∈ rest, r.2 ≠ p.2 := fun r hr => (hdist.1 r hr).symm
        rw [hstep, copyBlocksBuf_preserve hj hrest]
        simp only [regionCopy]
        have hin : p.2 * numel ≤ p.2 * numel + j ∧ p.2 * numel + j < p.2 * numel + numel := by
          omega
        rw [if_pos hin]
        congr 1
        omega
      · have hq1 : q.2 ≠ p.1 :=
          hdisj p (List.mem_cons_of_mem q hpr) q (List.mem_cons_self q rest)
        have hdisj2 : ∀ r ∈ rest, ∀ s ∈ rest, s.2 ≠ r.1 := fun r hr s hs =>
          hdisj r (List.mem_cons_of_mem q hr) s (List.mem_cons_of_mem q hs)
        rw [hstep, ih hdisj2 hdist.2 hpr]
        simp only [regionCopy]
        rw [if_neg (block_region_ne hq1.symm hj)]

/-- C3: `copy_blocks` applies the same mapping to the key buffer and the value
buffer of every layer; for a mapping whose destinations are pairwise distinct
and disjoint from its sources (the kernel's disjoint-target contract, §4.2),
every element of block `src` is copied into block `dst`, and block `src` itself
is left unchanged. -/
theorem copy_blocks_replicates (numel : Nat) (k0 : DTensor α) (krest : List (DTensor α))
    (valueCaches : List (DTensor α)) (mapping : List (Nat × Nat))
    (hlen : (k0 :: krest).length = valueCaches.length) (hdev : k0.dev.isCuda = true)
    (hdisj : ∀ p ∈ mapping, ∀ q ∈ mapping, q.2 ≠ p.1)
    (hdist : mapping.Pairwise fun p q => p.2 ≠ q.2) :
    copy_blocks numel (k0 :: krest) valueCaches mapping
      = Except.ok
          ((k0 :: krest).map fun t => ⟨t.dev, copyBlocksBuf numel mapping t.data⟩,
           valueCaches.map fun t => ⟨t.dev, copyBlocksBuf numel mapping t.data⟩) ∧
    ∀ (buf : Nat → α) (p : Nat × Nat), p ∈ mapping → ∀ j, j < numel →
      copyBlocksBuf numel mapping buf (p.2 * numel + j) = buf (p.1 * numel + j) ∧
      copyBlocksBuf numel mapping buf (p.1 * numel + j) = buf (p.1 * numel + j) := by
  constructor
  · simp [copy_blocks, hlen, hdev]
  · intro buf p hp j hj
    exact ⟨copyBlocksBuf_read hdisj hdist hp hj,
      copyBlocksBuf_preserve hj (fun q hq => hdisj p hp q hq)⟩

/-- Concrete cache layers used by witnesses (spec scenario of §8). -/
def layerK0 : DTensor Nat := ⟨Device.cuda 0, sampleBuf⟩

/-- Concrete cache layer used by witnesses. -/
def layerK1 : DTensor Nat := ⟨Device.cuda 0, sampleBuf2⟩

/-- Concrete cache layer used by witnesses. -/
def layerV0 : DTensor Nat := ⟨Device.cuda 0, fun n => n + 7⟩

/-- Concrete cache layer used by witnesses. -/
def layerV1 : DTensor Nat := ⟨Device.cuda 0, fun n => n * 2⟩

/-- Concrete host-resident layer used by witnesses. -/
def layerCpu : DTensor Nat := ⟨Device.cpu, sampleBuf⟩

theorem copy_blocks_replicates_witness :
    copy_blocks 4 [layerK0, layerK1] [layerV0, layerV1] [(2, 5)]
      = Except.ok
          ([layerK0, layerK1].map fun t => ⟨t.dev, copyBlocksBuf 4 [(2, 5)] t.data⟩,
           [layerV0, layerV1].map fun t => ⟨t.dev, copyBlocksBuf 4 [(2, 5)] t.data⟩) ∧
    (copyBlocksBuf 4 [(2, 5)] sampleBuf (5 * 4 + 1) = sampleBuf (2 * 4 + 1) ∧
     copyBlocksBuf 4 [(2, 5)] sampleBuf (2 * 4 + 1) = sampleBuf (2 * 4 + 1)) := by
  have h := copy_blocks_replicates 4 layerK0 [layerK1] [layerV0, layerV1] [(2, 5)]
    (by decide) (by decide) (by decide) (by decide)
  exact ⟨h.1, h.2 sampleBuf (2, 5) (by decide) 1 (by decide)⟩

theorem map_mk_eta (l : List (DTensor α)) :
    (l.map fun t => (⟨t.dev, t.data⟩ : DTensor α)) = l := by
  induction l with
  | nil => rfl
  | cons a l ih =>
      show (⟨a.dev, a.data⟩ : DTensor α) :: (l.map fun t => (⟨t.dev, t.data⟩ : DTensor α))
          = a :: l
      rw [ih]

/-- C8: `copy_blocks` error and no-op behaviour: a key/value layer-count
mismatch is rejected, a non-device first key cache is rejected (both as
`Except.error`, carrying no updated buffer — nothing is written), the empty
layer set is a no-op success, and an empty block mapping returns every cache
buffer unchanged. -/
theorem copy_blocks_checks (numel : Nat) (keyCaches valueCaches : List (DTensor α))
    (k0 : DTensor α) (krest : List (DTensor α)) (mapping : List (Nat × Nat)) :
    (keyCaches.length ≠ valueCaches.length →
      ∃ e, copy_blocks numel keyCaches valueCaches mapping = Except.error e) ∧
    (copy_blocks numel ([] : List (DTensor α)) [] mapping = Except.ok ([], [])) ∧
    (keyCaches = k0 :: krest → keyCaches.length = valueCaches.length →
      k0.dev.isCuda = false →
      ∃ e, copy_blocks numel keyCaches valueCaches mapping = Except.error e) ∧
    (keyCaches = k0 :: krest → keyCaches.length = valueCaches.length →
      k0.dev.isCuda = true →
      copy_blocks numel keyCaches valueCaches ([] : List (Nat × Nat))
        = Except.ok (keyCaches, valueCaches)) := by
  refine ⟨?_, ?_, ?_, ?_⟩
  · intro h
    exact ⟨"key and value layer count mismatch", by simp [copy_blocks, h]⟩
  · rfl
  · intro hk hlen hdev
    subst hk
    exact ⟨"cache must be on GPU", by simp [copy_blocks, hlen, hdev]⟩
  · intro hk hlen hdev
    subst hk
    simp [copy_blocks, hlen, hdev, copyBlocksBuf, map_mk_eta]

theorem copy_blocks_checks_witness :
    (∃ e, copy_blocks 4 ([] : List (DTensor Nat)) [layerV0] [(2, 5)] = Except.error e) ∧
    copy_blocks 4 ([] : List (DTensor Nat)) [] [(2, 5)] = Except.ok ([], []) ∧
    (∃ e, copy_blocks 4 [layerCpu] [layerV0] [(2, 5)] = Except.error e) ∧
    copy_blocks 4 [layerK0] [layerV0] ([] : List (Nat × Nat))
      = Except.ok ([layerK0], [layerV0]) := by
  have h1 := copy_blocks_checks (α := Nat) 4 [] [layerV0] layerCpu [] [(2, 5)]
  have h2 := copy_blocks_checks (α := Nat) 4 [layerCpu] [layerV0] layerCpu [] [(2, 5)]
  have h3 := copy_blocks_checks (α := Nat) 4 [layerK0] [layerV0] layerK0 [] [(2, 5)]
  exact ⟨h1.1 (by decide), h1.2.1, h2.2.2.1 rfl (by decide) (by decide),
    h3.2.2.2 rfl (by decide) (by decide)⟩

/-- Split-layout key target index of `reshape_and_cache_kernel`:
`block_idx = slot / block_size`, `block_offset = slot % block_size`,
`head_idx = i / head_size`, `head_offset = i % head_size`,
`x_idx = head_offset / x`, `x_offset = head_offset % x`. -/
def splitKeyIdx (H h S x : Nat) (slot i : Nat) : Nat :=
  slot / S * H * (h / x) * S * x + i / h * (h / x) * S * x
    + i % h / x * S * x + slot % S * x + i % h % x

/-- Split-layout value target index of `reshape_and_cache_kernel`. -/
def splitValueIdx (H h S : Nat) (slot i : Nat) : Nat :=
  slot / S * H * h * S + i / h * h * S + i % h * S + slot % S

/-- Flat-layout target index of `reshape_and_cache_flash_kernel`, shared by
key and value. -/
def flatIdx (blockStride H h S : Nat) (slot i : Nat) : Nat :=
  slot / S * blockStride + slot % S * H * h + i / h * h + i % h

/-- Per-token channel loop of the scatter kernels: write source channel `i`
to `tgt i`, for every `i < n = num_heads * head_size`. -/
def cacheToken (n : Nat) (tgt : Nat → Nat) (src : Nat → α) (cache : Nat → α) : Nat → α :=
  (List.range n).foldl (fun c i => Function.update c (tgt i) (src i)) cache

/-- The token grid of the scatter kernels: one unit per `(token_idx, slot)`
entry; a negative slot is skipped entirely. -/
def scatterFold (n : Nat) (tgtIdx : Nat → Nat → Nat) (srcAt : Nat → Nat → α)
    (toks : List (Nat × Int)) (cache : Nat → α) : Nat → α :=
  toks.foldl
    (fun c p => if p.2 < 0 then c else cacheToken n (tgtIdx p.2.toNat) (srcAt p.1) c) cache

/-- `reshape_and_cache_kernel`: grid over tokens, channel loop per token,
split-layout addressing, direct copy (`kAuto`). -/
def reshape_and_cache_kernel (H h S x keyStride valueStride : Nat)
    (key value : Nat → α) (slotMapping : List Int) (keyCache valueCache : Nat → α) :
    (Nat → α) × (Nat → α) :=
  (scatterFold (H * h) (splitKeyIdx H h S x)
     (fun t i => key (t * keyStride + i)) slotMapping.enum keyCache,
   scatterFold (H * h) (splitValueIdx H h S)
     (fun t i => value (t * valueStride + i)) slotMapping.enum valueCache)

/-- `reshape_and_cache_flash_kernel`: grid over tokens, channel loop per token,
flat-layout addressing shared by key and value. -/
def reshape_and_cache_flash_kernel (blockStride H h S keyStride valueStride : Nat)
    (key value : Nat → α) (slotMapping : List Int) (kCache vCache : Nat → α) :
    (Nat → α) × (Nat → α) :=
  (scatterFold (H * h) (flatIdx blockStride H h S)
     (fun t i => key (t * keyStride + i)) slotMapping.enum kCache,
   scatterFold (H * h) (flatIdx blockStride H h S)
     (fun t i => value (t * valueStride + i)) slotMapping.enum vCache)

/-- `reshape_and_cache_flash`: rejects every cache dtype other than "auto",
checks that key and value caches share one block stride, then launches the
kernel. -/
def reshape_and_cache_flash (kvCacheDtype : String)
    (kBlockStride vBlockStride H h S keyStride valueStride : Nat)
    (key value : Nat → α) (slotMapping : List Int) (kCache vCache : Nat → α) :
    Except String ((Nat → α) × (Nat → α)) :=
  if kvCacheDtype ≠ "auto" then
    Except.error "Unsupported data type of kv cache"
  else if kBlockStride ≠ vBlockStride then
    Except.error "k_cache and v_cache must have the same block stride"
  else
    Except.ok (reshape_and_cache_flash_kernel kBlockStride H h S keyStride valueStride
      key value slotMapping kCache vCache)

theorem foldUpdate_frame {tgt : Nat → Nat} {src : Nat → α} {L : List Nat}
    {cache : Nat → α} {idx : Nat} (hout : ∀ i ∈ L, tgt i ≠ idx) :
    L.foldl (fun c i => Function.update c (tgt i) (src i)) cache idx = cache idx := by
  induction L generalizing cache with
  | nil => rfl
  | cons a L ih =>
      rw [List.foldl_cons, ih (fun i hi => hout i (List.mem_cons_of_mem a hi)),
        Function.update_noteq (hout a (List.mem_cons_self a L)).symm]

theorem foldUpdate_read {tgt : Nat → Nat} {src : Nat → α} {L : List Nat}
    {cache : Nat → α} {i : Nat} (hi : i ∈ L)
    (hinj : ∀ j ∈ L, tgt j = tgt i → j = i) :
    L.foldl (fun c a => Function.update c (tgt a) (src a)) cache (tgt i) = src i := by
  induction L generalizing cache with
  | nil => cases hi
  | cons a L ih =>
      rw [List.foldl_cons]
      by_cases hiL : i ∈ L
      · exact ih hiL (fun j hj hje => hinj j (List.mem_cons_of_mem a hj) hje)
      · have hia : i = a := by
          rcases List.mem_cons.mp hi with hh | hh
          · exact hh
          · exact absurd hh hiL
        subst hia
        have hne : ∀ j ∈ L, tgt j ≠ tgt i := by
          intro j hj hje
          have hji := hinj j (List.mem_cons_of_mem i hj) hje
          subst hji
          exact hiL hj
        rw [foldUpdate_frame hne, Function.update_same]

theorem cacheToken_frame {n : Nat} {tgt : Nat → Nat} {src : Nat → α}
    {cache : Nat → α} {idx : Nat} (hout : ∀ i, i < n → tgt i ≠ idx) :
    cacheToken n tgt src cache idx = cache idx :=
  foldUpdate_frame (fun i hi => hout i (List.mem_range.mp hi))

theorem cacheToken_read {n : Nat} {tgt : Nat → Nat} {src : Nat → α}
    {cache : Nat → α} (hinj : ∀ a b, a < n → b < n → tgt a = tgt b → a = b)
    {i : Nat} (hi : i < n) :
    cacheToken n tgt src cache (tgt i) = src i :=
  foldUpdate_read (List.mem_range.mpr hi)
    (fun j hj hje => hinj j i (List.mem_range.mp hj) hi hje)

theorem scatterFold_cons (n : Nat) (tgtIdx : Nat → Nat → Nat) (srcAt : Nat → Nat → α)
    (t : Nat) (s : Int) (rest : List (Nat × Int)) (cache : Nat → α) :
    scatterFold n tgtIdx srcAt ((t, s) :: rest) cache
      = scatterFold n tgtIdx srcAt rest
          (if s < 0 then cache else cacheToken n (tgtIdx s.toNat) (srcAt t) cache) := rfl

theorem scatterFold_allNeg {n : Nat} {tgtIdx : Nat → Nat → Nat} {srcAt : Nat → Nat → α}
    {toks : List (Nat × Int)} {cache : Nat → α} (hneg : ∀ p ∈ toks, p.2 < 0) :
    scatterFold n tgtIdx srcAt toks cache = cache := by
  induction toks with
  | nil => rfl
  | cons q rest ih =>
      obtain ⟨t, s⟩ := q
      have hq : s < 0 := hneg (t, s) (List.mem_cons_self _ rest)
      rw [scatterFold_cons, if_pos hq]
      exact ih (fun p hp => hneg p (List.mem_cons_of_mem (t, s) hp))

theorem scatterFold_frame {n : Nat} {tgtIdx : Nat → Nat → Nat} {srcAt : Nat → Nat → α}
    {toks : List (Nat × Int)} {cache : Nat → α} {idx : Nat}
    (hout : ∀ p ∈ toks, 0 ≤ p.2 → ∀ i, i < n → tgtIdx p.2.toNat i ≠ idx) :
    scatterFold n tgtIdx srcAt toks cache idx = cache idx := by
  induction toks generalizing cache with
  | nil => rfl
  | cons q rest ih =>
      obtain ⟨t, s⟩ := q
      rw [scatterFold_cons, ih (fun p hp => hout p (List.mem_cons_of_mem (t, s) hp))]
      by_cases hq : s < 0
      · rw [if_pos hq]
      · rw [if_neg hq]
        exact cacheToken_frame
          (fun i hi => hout (t, s) (List.mem_cons_self _ rest) (by omega) i hi)

theorem scatterFold_read {n : Nat} {tgtIdx : Nat → Nat → Nat} {srcAt : Nat → Nat → α}
    {toks : List (Nat × Int)} {cache : Nat → α}
    (hinj : ∀ s s' i i', i < n → i' < n → tgtIdx s i = tgtIdx s' i' → s = s' ∧ i = i')
    (hpair : toks.Pairwise fun p q => 0 ≤ p.2 → 0 ≤ q.2 → p.2 ≠ q.2)
    {t : Nat} {s : Int} (hts : (t, s) ∈ toks) (hs : 0 ≤ s) {i : Nat} (hi : i < n) :
    scatterFold n tgtIdx srcAt toks cache (tgtIdx s.toNat i) = srcAt t i := by
  induction toks generalizing cache with
  | nil => cases hts
  | cons q rest ih =>
      rw [List.pairwise_cons] at hpair
      obtain ⟨qt, qs⟩ := q
      rw [scatterFold_cons]
      by_cases hmem : (t, s) ∈ rest
      · exact ih hpair.2 hmem
      · have hq : (qt, qs) = (t, s) := by
          rcases List.mem_cons.mp hts with hh | hh
          · exact hh.symm
          · exact absurd hh hmem
        rw [Prod.mk.injEq] at hq
        obtain ⟨hq1, hq2⟩ := hq
        have hq1s : t = qt := hq1.symm
        have hq2s : s = qs := hq2.symm
        subst hq1s
        subst hq2s
        rw [if_neg (by omega : ¬ s < 0)]
        have hframe : ∀ p ∈ rest, 0 ≤ p.2 → ∀ i', i' < n →
            tgtIdx p.2.toNat i' ≠ tgtIdx s.toNat i := by
          intro p hp hps i' hi' hje
          have h2 := hinj p.2.toNat s.toNat i' i hi' hi hje
          have hpe : p.2 = s := by
            have h21 := h2.1
            omega
          exact hpair.1 p hp hs hps hpe.symm
        rw [scatterFold_frame hframe]
        exact cacheToken_read
          (fun a b ha hb hab => (hinj s.toNat s.toNat a b ha hb hab).2) hi

theorem radix_split {N a b r r' : Nat} (hN : 0 < N) (hr : r < N) (hr' : r' < N)
    (heq : a * N + r = b * N + r') : a = b ∧ r = r' := by
  have ha : (a * N + r) / N = a := by
    rw [Nat.mul_comm a N, Nat.mul_add_div hN, Nat.div_eq_of_lt hr, Nat.add_zero]
  have hb : (b * N + r') / N = b := by
    rw [Nat.mul_comm b N, Nat.mul_add_div hN, Nat.div_eq_of_lt hr', Nat.add_zero]
  have hab : a = b := by rw [← ha, ← hb, heq]
  refine ⟨hab, ?_⟩
  rw [hab] at heq
  omega

theorem digit_bound {a b A B : Nat} (ha : a < A) (hb : b < B) : a * B + b < A * B := by
  have h1 : (a + 1) * B ≤ A * B := Nat.mul_le_mul_right B ha
  rw [Nat.succ_mul] at h1
  omega

theorem splitKeyIdx_inj {H h S x : Nat} (hx : 0 < x) (hdvd : x ∣ h) (hS : 0 < S)
    {s s' i i' : Nat} (hi : i < H * h) (hi' : i' < H * h)
    (heq : splitKeyIdx H h S x s i = splitKeyIdx H h S x s' i') : s = s' ∧ i = i' := by
  have hHh : 0 < H * h := Nat.lt_of_le_of_lt (Nat.zero_le i) hi
  have hH : 0 < H := by
    rcases Nat.eq_zero_or_pos H with h0 | h0
    · rw [h0, Nat.zero_mul] at hHh; omega
    · exact h0
  have hh : 0 < h := by
    rcases Nat.eq_zero_or_pos h with h0 | h0
    · rw [h0, Nat.mul_zero] at hHh; omega
    · exact h0
  have hxle : x ≤ h := Nat.le_of_dvd hh hdvd
  have hhx : 0 < h / x := Nat.div_pos hxle hx
  have hhead : i / h < H := (Nat.div_lt_iff_lt_mul hh).mpr hi
  have hhead' : i' / h < H := (Nat.div_lt_iff_lt_mul hh).mpr hi'
  have hho : i % h < h := Nat.mod_lt _ hh
  have hho' : i' % h < h := Nat.mod_lt _ hh
  have hxidx : i % h / x < h / x := Nat.div_lt_div_of_lt_of_dvd hdvd hho
  have hxidx' : i' % h / x < h / x := Nat.div_lt_div_of_lt_of_dvd hdvd hho'
  have hxoff : i % h % x < x := Nat.mod_lt _ hx
  have hxoff' : i' % h % x < x := Nat.mod_lt _ hx
  have hboff : s % S < S := Nat.mod_lt _ hS
  have hboff' : s' % S < S := Nat.mod_lt _ hS
  have hkey : ∀ a b : Nat, splitKeyIdx H h S x a b
      = a / S * (H * (h / x * (S * x)))
        + (b / h * (h / x * (S * x)) + (b % h / x * (S * x) + (a % S * x + b % h % x))) := by
    intro a b
    simp only [splitKeyIdx]
    ring
  rw [hkey, hkey] at heq
  have hb1 : s % S * x + i % h % x < S * x := digit_bound hboff hxoff
  have hb1' : s' % S * x + i' % h % x < S * x := digit_bound hboff' hxoff'
  have hb2 : i % h / x * (S * x) + (s % S * x + i % h % x) < h / x * (S * x) :=
    digit_bound hxidx hb1
  have hb2' : i' % h / x * (S * x) + (s' % S * x + i' % h % x) < h / x * (S * x) :=
    digit_bound hxidx' hb1'
  have hb3 : i / h * (h / x * (S * x))
      + (i % h / x * (S * x) + (s % S * x + i % h % x)) < H * (h / x * (S * x)) :=
    digit_bound hhead hb2
  have hb3' : i' / h * (h / x * (S * x))
      + (i' % h / x * (S * x) + (s' % S * x + i' % h % x)) < H * (h / x * (S * x)) :=
    digit_bound hhead' hb2'
  have hN1 : 0 < H * (h / x * (S * x)) :=
    Nat.mul_pos hH (Nat.mul_pos hhx (Nat.mul_pos hS hx))
  obtain ⟨e1, heq2⟩ := radix_split hN1 hb3 hb3' heq
  have hN2 : 0 < h / x * (S * x) := Nat.mul_pos hhx (Nat.mul_pos hS hx)
  obtain ⟨e2, heq3⟩ := radix_split hN2 hb2 hb2' heq2
  have hN3 : 0 < S * x := Nat.mul_pos hS hx
  obtain ⟨e3, heq4⟩ := radix_split hN3 hb1 hb1' heq3
  obtain ⟨e4, e5⟩ := radix_split hx hxoff hxoff' heq4
  constructor
  · have d1 := Nat.div_add_mod s S
    have d2 := Nat.div_add_mod s' S
    rw [e1, e4] at d1
    omega
  · have m1 := Nat.div_add_mod (i % h) x
    have m2 := Nat.div_add_mod (i' % h) x
    rw [e3, e5] at m1
    have emod : i % h = i' % h := by omega
    have d1 := Nat.div_add_mod i h
    have d2 := Nat.div_add_mod i' h
    rw [e2, emod] at d1
    omega

theorem splitValueIdx_inj {H h S : Nat} (hS : 0 < S)
    {s s' i i' : Nat} (hi : i < H * h) (hi' : i' < H * h)
    (heq : splitValueIdx H h S s i = splitValueIdx H h S s' i') : s = s' ∧ i = i' := by
  have hHh : 0 < H * h := Nat.lt_of_le_of_lt (Nat.zero_le i) hi
  have hH : 0 < H := by
    rcases Nat.eq_zero_or_pos H with h0 | h0
    · rw [h0, Nat.zero_mul] at hHh; omega
    · exact h0
  have hh : 0 < h := by
    rcases Nat.eq_zero_or_pos h with h0 | h0
    · rw [h0, Nat.mul_zero] at hHh; omega
    · exact h0
  have hhead : i / h < H := (Nat.div_lt_iff_lt_mul hh).mpr hi
  have hhead' : i' / h < H := (Nat.div_lt_iff_lt_mul hh).mpr hi'
  have hho : i % h < h := Nat.mod_lt _ hh
  have hho' : i' % h < h := Nat.mod_lt _ hh
  have hboff : s % S < S := Nat.mod_lt _ hS
  have hboff' : s' % S < S := Nat.mod_lt _ hS
  have hval : ∀ a b : Nat, splitValueIdx H h S a b
      = a / S * (H * (h * S)) + (b / h * (h * S) + (b % h * S + a % S)) := by
    intro a b
    simp only [splitValueIdx]
    ring
  rw [hval, hval] at heq
  have hb1 : i % h * S + s % S < h * S := digit_bound hho hboff
  have hb1' : i' % h * S + s' % S < h * S := digit_bound hho' hboff'
  have hb2 : i / h * (h * S) + (i % h * S + s % S) < H * (h * S) := digit_bound hhead hb1
  have hb2' : i' / h * (h * S) + (i' % h * S + s' % S) < H * (h * S) :=
    digit_bound hhead' hb1'
  have hN1 : 0 < H * (h * S) := Nat.mul_pos hH (Nat.mul_pos hh hS)
  obtain ⟨e1, heq2⟩ := radix_split hN1 hb2 hb2' heq
  have hN2 : 0 < h * S := Nat.mul_pos hh hS
  obtain ⟨e2, heq3⟩ := radix_split hN2 hb1 hb1' heq2
  obtain ⟨e3, e4⟩ := radix_split hS hboff hboff' heq3
  constructor
  · have d1 := Nat.div_add_mod s S
    have d2 := Nat.div_add_mod s' S
    rw [e1, e4] at d1
    omega
  · have d1 := Nat.div_add_mod i h
    have d2 := Nat.div_add_mod i' h
    rw [e2, e3] at d1
    omega

/-- C4: in the split layout, `reshape_and_cache_kernel` writes the key element
of token `t`, channel `i`, at offset `splitKeyIdx` and the value element at
offset `splitValueIdx` — exactly the §4.3 offset formulas — for every token
with non-negative slot, given the kernel's contract that the slot mapping has
no duplicate valid slot, that `x` divides `head_size`, and that `block_size`
is positive. -/
theorem reshape_and_cache_split_offsets (H h S x keyStride valueStride : Nat)
    (key value : Nat → α) (slotMapping : List Int) (keyCache valueCache : Nat → α)
    (hx : 0 < x) (hdvd : x ∣ h) (hS : 0 < S)
    (hpair : slotMapping.enum.Pairwise fun p q => 0 ≤ p.2 → 0 ≤ q.2 → p.2 ≠ q.2)
    (t : Nat) (s : Int) (hts : (t, s) ∈ slotMapping.enum) (hs : 0 ≤ s)
    (i : Nat) (hi : i < H * h) :
    (reshape_and_cache_kernel H h S x keyStride valueStride key value slotMapping
        keyCache valueCache).1 (splitKeyIdx H h S x s.toNat i)
      = key (t * keyStride + i) ∧
    (reshape_and_cache_kernel H h S x keyStride valueStride key value slotMapping
        keyCache valueCache).2 (splitValueIdx H h S s.toNat i)
      = value (t * valueStride + i) := by
  refine ⟨?_, ?_⟩
  · show scatterFold (H * h) (splitKeyIdx H h S x)
        (fun a b => key (a * keyStride + b)) slotMapping.enum keyCache
        (splitKeyIdx H h S x s.toNat i) = key (t * keyStride + i)
    exact scatterFold_read (fun a b c d hc hd he => splitKeyIdx_inj hx hdvd hS hc hd he)
      hpair hts hs hi
  · show scatterFold (H * h) (splitValueIdx H h S)
        (fun a b => value (a * valueStride + b)) slotMapping.enum valueCache
        (splitValueIdx H h S s.toNat i) = value (t * valueStride + i)
    exact scatterFold_read (fun a b c d hc hd he => splitValueIdx_inj hS hc hd he)
      hpair hts hs hi

/-- Sample per-token key input used by concrete witnesses. -/
def sampleKey : Nat → Nat := fun m => 100 + m

/-- Sample per-token value input used by concrete witnesses. -/
def sampleValue : Nat → Nat := fun m => 200 + m

/-- All-zero cache buffer used by concrete witnesses. -/
def zeroBuf : Nat → Nat := fun _ => 0

theorem reshape_and_cache_split_offsets_witness :
    ((20 : Int).toNat / 16 = 1 ∧ (20 : Int).toNat % 16 = 4 ∧
      (5 : Nat) / 16 = 0 ∧ (5 : Nat) % 16 = 5) ∧
    (reshape_and_cache_kernel 2 4 16 2 8 8 sampleKey sampleValue [5, -1, 20]
        zeroBuf zeroBuf).1 (splitKeyIdx 2 4 16 2 (20 : Int).toNat 3)
      = sampleKey (2 * 8 + 3) ∧
    (reshape_and_cache_kernel 2 4 16 2 8 8 sampleKey sampleValue [5, -1, 20]
        zeroBuf zeroBuf).2 (splitValueIdx 2 4 16 (20 : Int).toNat 3)
      = sampleValue (2 * 8 + 3) :=
  ⟨by decide,
   reshape_and_cache_split_offsets 2 4 16 2 8 8 sampleKey sampleValue [5, -1, 20]
     zeroBuf zeroBuf (by decide) (by decide) (by decide) (by decide) 2 20 (by decide)
     (by decide) 3 (by decide)⟩

theorem snd_mem_of_mem_enumFrom {β : Type} {l : List β} {k : Nat} {p : Nat × β}
    (hp : p ∈ l.enumFrom k) : p.2 ∈ l := by
  induction l generalizing k with
  | nil => cases hp
  | cons a l ih =>
      simp only [List.enumFrom] at hp
      rcases List.mem_cons.mp hp with hh | hh
      · rw [hh]
        exact List.mem_cons_self a l
      · exact List.mem_cons_of_mem a (ih hh)

theorem snd_mem_of_mem_enum {β : Type} {l : List β} {p : Nat × β}
    (hp : p ∈ l.enum) : p.2 ∈ l :=
  snd_mem_of_mem_enumFrom hp

/-- C5: any token whose slot entry is negative is skipped entirely by the
scatter kernels — the per-token step is the identity, writing nothing and
raising no error — and consequently, with an all-negative slot mapping, both
the split-layout kernel and the flat-layout kernel leave the key cache and the
value cache entirely unchanged. -/
theorem scatter_skips_negative (H h S x bs keyStride valueStride : Nat)
    (key value : Nat → α) (slotMapping : List Int) (keyCache valueCache : Nat → α) :
    (∀ (n : Nat) (tgtIdx : Nat → Nat → Nat) (srcAt : Nat → Nat → α) (t : Nat) (s : Int)
        (rest : List (Nat × Int)) (c : Nat → α), s < 0 →
      scatterFold n tgtIdx srcAt ((t, s) :: rest) c = scatterFold n tgtIdx srcAt rest c) ∧
    ((∀ s ∈ slotMapping, s < 0) →
      reshape_and_cache_kernel H h S x keyStride valueStride key value slotMapping
          keyCache valueCache = (keyCache, valueCache) ∧
      reshape_and_cache_flash_kernel bs H h S keyStride valueStride key value slotMapping
          keyCache valueCache = (keyCache, valueCache)) := by
  constructor
  · intro n tgtIdx srcAt t s rest c hneg
    rw [scatterFold_cons, if_pos hneg]
  · intro hneg
    have henum : ∀ p ∈ slotMapping.enum, p.2 < 0 :=
      fun p hp => hneg p.2 (snd_mem_of_mem_enum hp)
    constructor
    · unfold reshape_and_cache_kernel
      rw [scatterFold_allNeg henum, scatterFold_allNeg henum]
    · unfold reshape_and_cache_flash_kernel
      rw [scatterFold_allNeg henum, scatterFold_allNeg henum]

theorem scatter_skips_negative_witness :
    reshape_and_cache_kernel 2 4 16 2 8 8 sampleKey sampleValue [-1, -3]
        zeroBuf sampleBuf = (zeroBuf, sampleBuf) ∧
    reshape_and_cache_flash_kernel 128 2 4 16 8 8 sampleKey sampleValue [-1, -3]
        zeroBuf sampleBuf = (zeroBuf, sampleBuf) :=
  (scatter_skips_negative 2 4 16 2 128 8 8 sampleKey sampleValue [-1, -3]
    zeroBuf sampleBuf).2 (by decide)

/-- C7: `reshape_and_cache_flash` rejects every cache-dtype tag other than
"auto" with a synchronous error — the `Except.error` result carries no caches,
so nothing is written and the request is not silently ignored — while the
direct-copy tag "auto" proceeds to the kernel (given the checked shared block
stride). -/
theorem reshape_and_cache_flash_rejects_quantization (kvCacheDtype : String)
    (kbs vbs H h S keyStride valueStride : Nat) (key value : Nat → α)
    (slotMapping : List Int) (kCache vCache : Nat → α) :
    (kvCacheDtype ≠ "auto" →
      ∃ e, reshape_and_cache_flash kvCacheDtype kbs vbs H h S keyStride valueStride
        key value slotMapping kCache vCache = Except.error e) ∧
    (kvCacheDtype = "auto" → kbs = vbs →
      reshape_and_cache_flash kvCacheDtype kbs vbs H h S keyStride valueStride
          key value slotMapping kCache vCache
        = Except.ok (reshape_and_cache_flash_kernel kbs H h S keyStride valueStride
            key value slotMapping kCache vCache)) := by
  constructor
  · intro hne
    exact ⟨"Unsupported data type of kv cache", by simp [reshape_and_cache_flash, hne]⟩
  · intro he hbs
    subst he
    subst hbs
    simp [reshape_and_cache_flash]

theorem reshape_and_cache_flash_rejects_quantization_witness :
    (∃ e, reshape_and_cache_flash "fp8" 128 128 2 4 16 8 8 sampleKey sampleValue
        ([-1] : List Int) zeroBuf zeroBuf = Except.error e) ∧
    reshape_and_cache_flash "auto" 128 128 2 4 16 8 8 sampleKey sampleValue
        ([-1] : List Int) zeroBuf zeroBuf
      = Except.ok (reshape_and_cache_flash_kernel 128 2 4 16 8 8 sampleKey sampleValue
          ([-1] : List Int) zeroBuf zeroBuf) :=
  ⟨(reshape_and_cache_flash_rejects_quantization "fp8" 128 128 2 4 16 8 8 sampleKey
      sampleValue [-1] zeroBuf zeroBuf).1 (by decide),
   (reshape_and_cache_flash_rejects_quantization "auto" 128 128 2 4 16 8 8 sampleKey
      sampleValue [-1] zeroBuf zeroBuf).2 rfl rfl⟩

/-- ATen scalar dtypes relevant to the `convert_fp8` dispatch (`byte` is the
narrow 8-bit storage dtype `at::ScalarType::Byte`; `double` and `int64` stand
for the dtypes the dispatch chain never matches). -/
inductive ScalarType where
  | float
  | half
  | bfloat16
  | byte
  | double
  | int64
deriving DecidableEq

/-- The three wide representations of §4.4. -/
def ScalarType.isWide : ScalarType → Bool
  | .float => true
  | .half => true
  | .bfloat16 => true
  | _ => false

/-- C++ element types instantiating `convert_fp8_kernel` through
`CALL_CONVERT_FP8`. -/
inductive CType where
  | u8
  | f32
  | u16
  | bf16
deriving DecidableEq

/-- The `Fp8KVCacheDataType` template tag. -/
inductive Fp8KVCacheDataType where
  | kAuto
  | kFp8E4M3
deriving DecidableEq

/-- One `CALL_CONVERT_FP8(Tout, Tin, KV_DTYPE)` kernel launch. -/
structure KernelLaunch where
  tout : CType
  tin : CType
  kvDt : Fp8KVCacheDataType
deriving DecidableEq

/-- The dtype/encoding if-else chain of `convert_fp8`: under a recognized tag,
the source dtype is tried against the three wide types (wide to narrow, the
destination reinterpreted as `uint8_t`), then the destination dtype (narrow to
wide); `Except.ok none` means the chain falls through with no kernel launched.
An unrecognized tag is a `TORCH_CHECK` failure. -/
def convertDispatch (tag : String) (srcDtype dstDtype : ScalarType) :
    Except String (Option KernelLaunch) :=
  if tag = "auto" then
    if srcDtype = ScalarType.float then
      Except.ok (some ⟨CType.u8, CType.f32, Fp8KVCacheDataType.kAuto⟩)
    else if srcDtype = ScalarType.half then
      Except.ok (some ⟨CType.u8, CType.u16, Fp8KVCacheDataType.kAuto⟩)
    else if srcDtype = ScalarType.bfloat16 then
      Except.ok (some ⟨CType.u8, CType.bf16, Fp8KVCacheDataType.kAuto⟩)
    else if dstDtype = ScalarType.float then
      Except.ok (some ⟨CType.f32, CType.u8, Fp8KVCacheDataType.kAuto⟩)
    else if dstDtype = ScalarType.half then
      Except.ok (some ⟨CType.u16, CType.u8, Fp8KVCacheDataType.kAuto⟩)
    else if dstDtype = ScalarType.bfloat16 then
      Except.ok (some ⟨CType.bf16, CType.u8, Fp8KVCacheDataType.kAuto⟩)
    else Except.ok none
  else if tag = "fp8" ∨ tag = "fp8_e4m3" then
    if srcDtype = ScalarType.float then
      Except.ok (some ⟨CType.u8, CType.f32, Fp8KVCacheDataType.kFp8E4M3⟩)
    else if srcDtype = ScalarType.half then
      Except.ok (some ⟨CType.u8, CType.u16, Fp8KVCacheDataType.kFp8E4M3⟩)
    else if srcDtype = ScalarType.bfloat16 then
      Except.ok (some ⟨CType.u8, CType.bf16, Fp8KVCacheDataType.kFp8E4M3⟩)
    else if dstDtype = ScalarType.float then
      Except.ok (some ⟨CType.f32, CType.u8, Fp8KVCacheDataType.kFp8E4M3⟩)
    else if dstDtype = ScalarType.half then
      Except.ok (some ⟨CType.u16, CType.u8, Fp8KVCacheDataType.kFp8E4M3⟩)
    else if dstDtype = ScalarType.bfloat16 then
      Except.ok (some ⟨CType.bf16, CType.u8, Fp8KVCacheDataType.kFp8E4M3⟩)
    else Except.ok none
  else Except.error "Unsupported data type"

/-- `convert_fp8(dst_cache, src_cache, kv_scale, kv_cache_dtype)`: device
checks (source on a GPU, destination on a GPU, same index), then the dispatch
chain. -/
def convert_fp8 (srcDev dstDev : Device) (srcDtype dstDtype : ScalarType)
    (tag : String) : Except String (Option KernelLaunch) :=
  match srcDev, dstDev with
  | Device.cpu, _ => Except.error "src must be on a GPU"
  | Device.cuda _, Device.cpu => Except.error "dst must be on a GPU"
  | Device.cuda i, Device.cuda j =>
    if i ≠ j then Except.error "src and dst must be on the same GPU"
    else convertDispatch tag srcDtype dstDtype

/-- C10: `convert_fp8` requires both buffers device-resident and on the same
device: a host-resident source or destination, or a device-index mismatch, is
an `Except.error` raised before the dispatch — no kernel is launched and no
destination element is written. -/
theorem convert_fp8_device_checks (ddev : Device) (sdt ddt : ScalarType)
    (tag : String) (i j : Nat) :
    (∃ e, convert_fp8 Device.cpu ddev sdt ddt tag = Except.error e) ∧
    (∃ e, convert_fp8 (Device.cuda i) Device.cpu sdt ddt tag = Except.error e) ∧
    (i ≠ j →
      ∃ e, convert_fp8 (Device.cuda i) (Device.cuda j) sdt ddt tag = Except.error e) := by
  refine ⟨⟨"src must be on a GPU", rfl⟩, ⟨"dst must be on a GPU", rfl⟩, ?_⟩
  intro hij
  exact ⟨"src and dst must be on the same GPU", by simp [convert_fp8, hij]⟩

theorem convert_fp8_device_checks_witness :
    (∃ e, convert_fp8 Device.cpu (Device.cuda 0) ScalarType.float ScalarType.byte
        "auto" = Except.error e) ∧
    (∃ e, convert_fp8 (Device.cuda 0) (Device.cuda 1) ScalarType.float ScalarType.byte
        "auto" = Except.error e) :=
  have h := convert_fp8_device_checks (Device.cuda 0) ScalarType.float ScalarType.byte
    "auto" 0 1
  ⟨h.1, h.2.2 (by decide)⟩

/-- C1 counterexample: a call whose dtype pair lies outside the supported set —
here narrow (uint8) to narrow (uint8), under the recognized tag "auto" — does
NOT fail: the dispatch chain falls through and the call returns success with
no kernel launched, contradicting the claim that every combination outside the
supported set raises UnsupportedOperation. -/
theorem convert_fp8_unsupported_pair_no_error :
    convert_fp8 (Device.cuda 0) (Device.cuda 0) ScalarType.byte ScalarType.byte "auto"
      = Except.ok none := rfl

/-- C1 amended: an unrecognized encoding tag fails with UnsupportedOperation —
synchronously, as an `Except.error` carrying no launch, so nothing is enqueued
and no destination element is written; but a call with a recognized tag whose
source and destination dtypes are both outside the three wide representations
returns successfully with no kernel launched — nothing enqueued, no
destination element written, and no error raised. -/
theorem convert_fp8_unsupported_dispatch (i : Nat) (sdt ddt : ScalarType)
    (tag : String) :
    (tag ≠ "auto" → tag ≠ "fp8" → tag ≠ "fp8_e4m3" →
      ∃ e, convert_fp8 (Device.cuda i) (Device.cuda i) sdt ddt tag = Except.error e) ∧
    ((tag = "auto" ∨ tag = "fp8" ∨ tag = "fp8_e4m3") →
      sdt.isWide = false → ddt.isWide = false →
      convert_fp8 (Device.cuda i) (Device.cuda i) sdt ddt tag = Except.ok none) := by
  have hcf : convert_fp8 (Device.cuda i) (Device.cuda i) sdt ddt tag
      = convertDispatch tag sdt ddt := by
    simp [convert_fp8]
  constructor
  · intro h1 h2 h3
    refine ⟨"Unsupported data type", ?_⟩
    rw [hcf]
    simp [convertDispatch, h1, h2, h3]
  · intro htag hsw hdw
    rw [hcf]
    rcases htag with h | h | h <;> subst h <;> cases sdt <;> cases ddt <;>
      first
        | exact absurd hsw (by decide)
        | exact absurd hdw (by decide)
        | rfl

theorem convert_fp8_unsupported_dispatch_witness :
    (∃ e, convert_fp8 (Device.cuda 0) (Device.cuda 0) ScalarType.float ScalarType.float
        "int8" = Except.error e) ∧
    convert_fp8 (Device.cuda 0) (Device.cuda 0) ScalarType.byte ScalarType.double "auto"
      = Except.ok none :=
  have h1 := convert_fp8_unsupported_dispatch 0 ScalarType.float ScalarType.float "int8"
  have h2 := convert_fp8_unsupported_dispatch 0 ScalarType.byte ScalarType.double "auto"
  ⟨h1.1 (by decide) (by decide) (by decide),
   h2.2 (Or.inl rfl) (by decide) (by decide)⟩

/-- Modelled from the spec: the body of `fp8::scaled_convert` lives in
`csrc/quantization/fp8/amd/quant_utils.cuh` or
`csrc/quantization/fp8/nvidia/quant_utils.cuh`, which are not part of this
repository snapshot (only the caller `convert_fp8_kernel` is).  Spec §4.4
describes the passthrough (`kAuto`) encoding as a bit-reinterpretation with
implicit scale 1, exactly invertible; elements are modelled as raw bit
patterns, on which the passthrough conversion is the identity. -/
def scaledConvertAuto (_scale : Rat) (bits : Nat) : Nat := bits

/-- `convert_fp8_kernel`: grid over `num_blocks` blocks, loop over
`i < block_stride`, elementwise `dst[idx] = f(src[idx])` at
`idx = block_idx * block_stride + i`. -/
def convert_fp8_kernel (f : Nat → Nat) (numBlocks blockStride : Nat)
    (src dst : Nat → Nat) : Nat → Nat :=
  (List.range numBlocks).foldl
    (fun d b =>
      (List.range blockStride).foldl
        (fun d2 i =>
          Function.update d2 (b * blockStride + i) (f (src (b * blockStride + i))))
        d)
    dst

theorem rangeWrite_eq (f : Nat → Nat) (src : Nat → Nat) (base k : Nat)
    (d : Nat → Nat) (idx : Nat) :
    (List.range k).foldl
        (fun d2 i => Function.update d2 (base + i) (f (src (base + i)))) d idx
      = if base ≤ idx ∧ idx < base + k then f (src idx) else d idx := by
  induction k with
  | zero =>
      simp only [List.range_zero, List.foldl_nil]
      rw [if_neg (by omega)]
  | succ m ih =>
      rw [List.range_succ, List.foldl_append, List.foldl_cons, List.foldl_nil]
      by_cases hidx : idx = base + m
      · subst hidx
        rw [Function.update_same, if_pos (by omega)]
      · rw [Function.update_noteq hidx, ih]
        split_ifs <;> first | rfl | omega

theorem convert_fp8_kernel_eq (f : Nat → Nat) (nb L : Nat) (src dst : Nat → Nat)
    (idx : Nat) :
    convert_fp8_kernel f nb L src dst idx
      = if idx < nb * L then f (src idx) else dst idx := by
  induction nb with
  | zero =>
      rw [if_neg (by omega)]
      rfl
  | succ m ih =>
      have hstep : convert_fp8_kernel f (m + 1) L src dst
          = (List.range L).foldl
              (fun d2 i =>
                Function.update d2 (m * L + i) (f (src (m * L + i))))
              (convert_fp8_kernel f m L src dst) := by
        unfold convert_fp8_kernel
        rw [List.range_succ, List.foldl_append, List.foldl_cons, List.foldl_nil]
      rw [hstep, rangeWrite_eq, ih, Nat.succ_mul]
      split_ifs <;> first | rfl | omega

/-- C9: passthrough self-inversion.  Under the "auto" tag `convert_fp8`
dispatches float to uint8 (wide to narrow) and uint8 to float (narrow to
wide), both with the passthrough `kAuto` encoding; and running
`convert_fp8_kernel` with the spec-modelled passthrough conversion at scale 1
in one direction and then the opposite direction reproduces every processed
element of the original buffer exactly, bit for bit. -/
theorem convert_fp8_passthrough_roundtrip (i nb L : Nat) (a b c : Nat → Nat)
    (idx : Nat) (hidx : idx < nb * L) :
    convert_fp8 (Device.cuda i) (Device.cuda i) ScalarType.float ScalarType.byte "auto"
      = Except.ok (some ⟨CType.u8, CType.f32, Fp8KVCacheDataType.kAuto⟩) ∧
    convert_fp8 (Device.cuda i) (Device.cuda i) ScalarType.byte ScalarType.float "auto"
      = Except.ok (some ⟨CType.f32, CType.u8, Fp8KVCacheDataType.kAuto⟩) ∧
    convert_fp8_kernel (scaledConvertAuto 1) nb L
        (convert_fp8_kernel (scaledConvertAuto 1) nb L a b) c idx = a idx := by
  refine ⟨by simp [convert_fp8, convertDispatch],
    by simp [convert_fp8, convertDispatch], ?_⟩
  rw [convert_fp8_kernel_eq, if_pos hidx, convert_fp8_kernel_eq]
  simp [scaledConvertAuto, hidx]

theorem convert_fp8_passthrough_roundtrip_witness :
    1 < 2 * 3 ∧
    convert_fp8_kernel (scaledConvertAuto 1) 2 3
        (convert_fp8_kernel (scaledConvertAuto 1) 2 3 sampleBuf zeroBuf) sampleBuf2 1
      = sampleBuf 1 :=
  ⟨by decide,
   (convert_fp8_passthrough_roundtrip 0 2 3 sampleBuf zeroBuf sampleBuf2 1
     (by decide)).2.2⟩

end CacheKernels
